import Mathlib

/-!
Verification of the voice-session orchestrator of the live-voice-agent
repository (LiveKit + Pipecat demo).  The definitions below are a shallow
embedding of the two client variants:

* `src/livekit-pipecat-demo/client-react/src/App.js` — the React client's
  `VoiceInteraction` component: its `useDataChannel('agent-messages', ...)`
  handler, its component state (`messages`, `latencyMeasurements`,
  `speechStartTime`, `isAgentSpeaking`, `isSpeaking`, `agentTypingText`)
  and its `avgLatency` computation.
* `src/livekit-pipecat-demo/client/client.js` — the plain client's module
  state (`appState`), `calculateAverageLatency`, `updateLatencyDisplay`,
  `handleTrackSubscribed`, the `vadDetected` callback installed by
  `handleLocalTrackPublished`, `setupRoomEventHandlers` and `toggleMute`.

Timestamps (`Date.now()`) are modelled as `Int` milliseconds supplied as an
explicit parameter to each event; the real clock only produces positive
values, which appears as a `0 < t` hypothesis where the JS truthiness test
`if (speechStartTime)` matters.  Platform primitives are modelled
executably: `TextDecoder().decode` as a total UTF-8 decoder with
replacement characters (the WHATWG decoder never throws), and `JSON.parse`
restricted to the protocol's flat objects with string fields (the only
shape the agent sends); a string the model rejects is handled exactly like
a string `JSON.parse` rejects — the handler's `catch` drops it.
-/

namespace VoiceAgent

/-- Commands the data-channel handler could issue to the transport adapter /
local playback sink.  The React handler in `App.js` makes no transport or
playback calls at all (its only side effects are `setState` and
`console.log`), so every branch of the embedding returns an empty command
list; the type records what a stop-playback request would be. -/
inductive Command where
  | stopPlayback
deriving DecidableEq, Repr

/-- A data-channel payload as delivered by the transport: raw UTF-8 bytes
(`ArrayBuffer`/`Uint8Array`) or a JavaScript string. -/
inductive RawPayload where
  | bytes (b : List Nat)
  | str (s : String)
deriving DecidableEq, Repr

/-- The argument of the `useDataChannel` callback: either the payload
directly, or a wrapper object with a `payload` field (the LiveKit format
checked first by `if (data && data.payload)` in `App.js`). -/
inductive ChannelData where
  | direct (p : RawPayload)
  | wrapped (p : RawPayload)
deriving DecidableEq, Repr

/-- U+FFFD, the WHATWG replacement character. -/
def replacementChar : Char := Char.ofNat 0xFFFD

/-- Model of `new TextDecoder().decode` (UTF-8, non-fatal): standard 1–4
byte sequences, anything invalid becomes U+FFFD.  Fuel-driven; each step
consumes at least one byte, so `length + 1` fuel always suffices. -/
def utf8DecodeGo : Nat → List Nat → List Char
  | 0, _ => []
  | _ + 1, [] => []
  | fuel + 1, b1 :: rest =>
    if b1 < 0x80 then
      Char.ofNat b1 :: utf8DecodeGo fuel rest
    else if 0xC2 ≤ b1 ∧ b1 ≤ 0xDF then
      match rest with
      | b2 :: rest2 =>
        if 0x80 ≤ b2 ∧ b2 ≤ 0xBF then
          Char.ofNat ((b1 - 0xC0) * 0x40 + (b2 - 0x80)) :: utf8DecodeGo fuel rest2
        else replacementChar :: utf8DecodeGo fuel rest
      | [] => [replacementChar]
    else if 0xE0 ≤ b1 ∧ b1 ≤ 0xEF then
      match rest with
      | b2 :: b3 :: rest3 =>
        if (0x80 ≤ b2 ∧ b2 ≤ 0xBF) ∧ (0x80 ≤ b3 ∧ b3 ≤ 0xBF) then
          let n := (b1 - 0xE0) * 0x1000 + (b2 - 0x80) * 0x40 + (b3 - 0x80)
          if 0x800 ≤ n ∧ (n < 0xD800 ∨ 0xDFFF < n) then
            Char.ofNat n :: utf8DecodeGo fuel rest3
          else replacementChar :: utf8DecodeGo fuel rest3
        else replacementChar :: utf8DecodeGo fuel rest
      | _ => [replacementChar]
    else if 0xF0 ≤ b1 ∧ b1 ≤ 0xF4 then
      match rest with
      | b2 :: b3 :: b4 :: rest4 =>
        if (0x80 ≤ b2 ∧ b2 ≤ 0xBF) ∧ ((0x80 ≤ b3 ∧ b3 ≤ 0xBF) ∧ (0x80 ≤ b4 ∧ b4 ≤ 0xBF)) then
          let n := (b1 - 0xF0) * 0x40000 + (b2 - 0x80) * 0x1000 + (b3 - 0x80) * 0x40 + (b4 - 0x80)
          if 0x10000 ≤ n ∧ n ≤ 0x10FFFF then
            Char.ofNat n :: utf8DecodeGo fuel rest4
          else replacementChar :: utf8DecodeGo fuel rest4
        else replacementChar :: utf8DecodeGo fuel rest
      | _ => [replacementChar]
    else replacementChar :: utf8DecodeGo fuel rest

/-- `new TextDecoder().decode(bytes)` — total, never throws. -/
def textDecode (b : List Nat) : String := ⟨utf8DecodeGo (b.length + 1) b⟩

/-- JavaScript truthiness of the `payload` field in
`if (data && data.payload)`: any object (including an empty
`ArrayBuffer`/`Uint8Array`) is truthy, a string is truthy iff nonempty. -/
def payloadTruthy : RawPayload → Bool
  | .bytes _ => true
  | .str s => s ≠ ""

/-- Converting one payload to text: bytes through `TextDecoder`, a string
kept as is (the `typeof === 'string'` branches of `App.js`). -/
def payloadText : RawPayload → String
  | .bytes b => textDecode b
  | .str s => s

/-- `String(data)` applied to a plain wrapper object, the fall-through the
handler reaches when the wrapper's `payload` field is falsy. -/
def jsStringOfObject : String := "[object Object]"

/-- Lines 44–64 of `App.js`: normalize the channel data to the string
handed to `JSON.parse`.  A wrapper whose `payload` is truthy is unwrapped;
a wrapper with a falsy `payload` (e.g. the empty string) falls through to
the direct branches, where an object stringifies to `[object Object]`. -/
def normalizeData : ChannelData → String
  | .direct p => payloadText p
  | .wrapped p => if payloadTruthy p then payloadText p else jsStringOfObject

/-- Whitespace skipping for the JSON model. -/
def skipWs : List Char → List Char
  | [] => []
  | c :: rest =>
    if c = ' ' ∨ c = Char.ofNat 10 ∨ c = Char.ofNat 9 ∨ c = Char.ofNat 13 then skipWs rest
    else c :: rest

/-- Body of a JSON string literal (after the opening quote): returns the
decoded characters and the remainder after the closing quote.  Handles the
simple escapes; other inputs fail, matching a `JSON.parse` exception. -/
def jsonStringBody : List Char → Option (List Char × List Char)
  | [] => none
  | c :: rest =>
    if c = '"' then some ([], rest)
    else if c = '\\' then
      match rest with
      | [] => none
      | e :: rest2 =>
        let ec : Option Char :=
          if e = '"' then some '"'
          else if e = '\\' then some '\\'
          else if e = '/' then some '/'
          else if e = 'n' then some (Char.ofNat 10)
          else if e = 't' then some (Char.ofNat 9)
          else if e = 'r' then some (Char.ofNat 13)
          else if e = 'b' then some (Char.ofNat 8)
          else if e = 'f' then some (Char.ofNat 12)
          else none
        match ec with
        | none => none
        | some ch =>
          match jsonStringBody rest2 with
          | some (cs, rem) => some (ch :: cs, rem)
          | none => none
    else
      match jsonStringBody rest with
      | some (cs, rem) => some (c :: cs, rem)
      | none => none

/-- A JSON string literal starting at the opening quote. -/
def jsonString (cs : List Char) : Option (String × List Char) :=
  match cs with
  | '"' :: rest =>
    match jsonStringBody rest with
    | some (body, rem) => some (⟨body⟩, rem)
    | none => none
  | _ => none

/-- One or more `"key": "value"` pairs up to the closing brace.  Fuel-driven
(each pair consumes at least one character). -/
def jsonPairsGo : Nat → List Char → Option (List (String × String) × List Char)
  | 0, _ => none
  | fuel + 1, cs =>
    match jsonString (skipWs cs) with
    | none => none
    | some (k, cs1) =>
      match skipWs cs1 with
      | ':' :: cs3 =>
        match jsonString (skipWs cs3) with
        | none => none
        | some (v, cs5) =>
          match skipWs cs5 with
          | ',' :: cs7 =>
            match jsonPairsGo fuel cs7 with
            | some (ps, rem) => some ((k, v) :: ps, rem)
            | none => none
          | '\x7d' :: cs7 => some ([(k, v)], cs7)
          | _ => none
      | _ => none

/-- Model of `JSON.parse` restricted to the protocol shape: a flat object
whose fields are strings, returned as a key/value list.  Any other input
is `none`, which the handler treats exactly like a `JSON.parse` throw. -/
def parseJsonFlat (s : String) : Option (List (String × String)) :=
  match skipWs s.data with
  | c :: rest =>
    if c = '\x7b' then
      match skipWs rest with
      | d :: rest2 =>
        if d = '\x7d' then (if skipWs rest2 = [] then some [] else none)
        else
          match jsonPairsGo (rest.length + 1) (skipWs rest) with
          | some (obj, rem) => if skipWs rem = [] then some obj else none
          | none => none
      | [] => none
    else none
  | [] => none

/-- JavaScript property access `message.k` on a parsed object: the last
binding of a duplicated key wins, a missing key is `undefined` (`none`). -/
def jsLookup (obj : List (String × String)) (k : String) : Option String :=
  obj.reverse.lookup k

/-- One entry of the React `messages` transcript (lines 72–77 and 98–103 of
`App.js`): `id` is `Date.now()` at processing time, `sender` is `'Agent'`
or `'You'`, `text` is `message.text` (possibly `undefined`).  The
display-only `timestamp: toLocaleTimeString()` field is presentation and
not modelled. -/
structure Msg where
  id : Int
  sender : String
  text : Option String
deriving DecidableEq, Repr

/-- The `VoiceInteraction` component state of `App.js` (its `useState`
hooks). -/
structure RState where
  messages : List Msg
  latencyMeasurements : List Int
  speechStartTime : Option Int
  isAgentSpeaking : Bool
  isSpeaking : Bool
  agentTypingText : Option String
deriving DecidableEq, Repr

/-- The initial component state: `useState([])`, `useState([])`,
`useState(null)`, `useState(false)`, `useState(false)`, `useState('')`. -/
def initialRState : RState :=
  { messages := []
    latencyMeasurements := []
    speechStartTime := none
    isAgentSpeaking := false
    isSpeaking := false
    agentTypingText := some "" }

/-- Lines 69–106 of `App.js`: the five-way dispatch on `message.type` after
a successful parse.  `if (speechStartTime)` is a JS truthiness test, so a
pending onset participates only when it is non-null and non-zero.  No
branch makes a transport or playback call, so the command list is empty in
every branch. -/
def handleParsed (st : RState) (now : Int) (obj : List (String × String)) :
    RState × List Command :=
  if jsLookup obj "type" = some "agent_response" then
    let st1 : RState :=
      { st with agentTypingText := some ""
                messages := st.messages ++
                  [{ id := now, sender := "Agent", text := jsLookup obj "text" }] }
    let st2 : RState :=
      match st1.speechStartTime with
      | some t0 =>
        if t0 ≠ 0 then
          { st1 with latencyMeasurements := st1.latencyMeasurements ++ [now - t0]
                     speechStartTime := none }
        else st1
      | none => st1
    ({ st2 with isAgentSpeaking := false }, [])
  else if jsLookup obj "type" = some "agent_speaking" then
    ({ st with isAgentSpeaking := true }, [])
  else if jsLookup obj "type" = some "agent_partial" then
    ({ st with isAgentSpeaking := true, agentTypingText := jsLookup obj "text" }, [])
  else if jsLookup obj "type" = some "user_partial" then
    ({ st with isSpeaking := true }, [])
  else if jsLookup obj "type" = some "user_transcript" then
    ({ st with messages := st.messages ++
                 [{ id := now, sender := "You", text := jsLookup obj "text" }]
               speechStartTime := some now
               isSpeaking := false }, [])
  else (st, [])

/-- The whole `useDataChannel('agent-messages', ...)` callback: normalize,
parse, dispatch.  A normalization/parse failure lands in the `catch` block,
which only logs — the state is unchanged and nothing escapes the callback
(modelled by this being a total function returning the input state). -/
def dataChannelStep (st : RState) (now : Int) (d : ChannelData) :
    RState × List Command :=
  match parseJsonFlat (normalizeData d) with
  | none => (st, [])
  | some obj => handleParsed st now obj

/-- Events reaching the `VoiceInteraction` component: a data-channel
message (with the `Date.now()` value at processing time), or the room's
reconnecting/reconnected transitions.  The component registers no handler
for the reconnection events (the surrounding `LiveKitRoom` manages the
connection while the component stays mounted), so they leave the component
state untouched. -/
inductive SessionEvent where
  | dataMessage (now : Int) (d : ChannelData)
  | transportReconnecting
  | transportReconnected
deriving DecidableEq, Repr

/-- One step of the React session under a `SessionEvent`. -/
def sessionStep (st : RState) (e : SessionEvent) : RState × List Command :=
  match e with
  | .dataMessage now d => dataChannelStep st now d
  | .transportReconnecting => (st, [])
  | .transportReconnected => (st, [])

/-- A run of data-channel events, each with its processing timestamp. -/
def runEvents (st : RState) : List (Int × ChannelData) → RState
  | [] => st
  | (t, d) :: rest => runEvents (dataChannelStep st t d).1 rest

/-- The module state of `client.js` (`createAppState`); the `room` object
itself is reduced to its presence (`hasRoom`, i.e. `room !== null`). -/
structure AppState where
  hasRoom : Bool
  isConnected : Bool
  isMuted : Bool
  latencyMeasurements : List Int
  speechStartTime : Option Int
deriving DecidableEq, Repr

/-- `createAppState()` of `client.js`. -/
def createAppState : AppState :=
  { hasRoom := false
    isConnected := false
    isMuted := false
    latencyMeasurements := []
    speechStartTime := none }

/-- `handleTrackSubscribed` of `client.js` (lines 129–146), restricted to
its effect on `appState`: on an audio track from a non-local participant,
a truthy pending `speechStartTime` yields one appended latency sample
`Date.now() - speechStartTime` — with no sign check — and the pending value
is cleared. -/
def handleTrackSubscribed (st : AppState) (now : Int) (kind identity : String) :
    AppState :=
  if kind = "audio" ∧ identity ≠ "demo-user" then
    match st.speechStartTime with
    | some t0 =>
      if t0 ≠ 0 then
        { st with latencyMeasurements := st.latencyMeasurements ++ [now - t0]
                  speechStartTime := none }
      else st
    | none => st
  else st

/-- The `vadDetected` callback installed by `handleLocalTrackPublished`
(lines 151–161 of `client.js`): record the speech onset. -/
def onVadDetected (st : AppState) (now : Int) : AppState :=
  { st with speechStartTime := some now }

/-- Room lifecycle events handled by `setupRoomEventHandlers`. -/
inductive RoomEvent where
  | connected
  | disconnected
  | reconnecting
  | reconnected
deriving DecidableEq, Repr

/-- `setupRoomEventHandlers` of `client.js`, restricted to `appState`
effects: `connected`/`disconnected` flip `isConnected`; the `reconnecting`
and `reconnected` handlers only touch the DOM (status text, button state)
and leave `appState` — in particular `latencyMeasurements` — untouched. -/
def roomEventStep (st : AppState) (e : RoomEvent) : AppState :=
  match e with
  | .connected => { st with isConnected := true }
  | .disconnected => { st with isConnected := false }
  | .reconnecting => st
  | .reconnected => st

/-- `toggleMute` of `client.js` (lines 275–286).  The adapter call
`audioTrack.setMuted(newMutedState)` is the supplied function; when it
rejects, the `await` throws out of the `async` function before the
`appState = { ...appState, isMuted: newMutedState }` assignment runs, so
the state is unchanged and the rejection is surfaced to the caller as the
`Except.error`. -/
def toggleMute (st : AppState) (hasAudioTrack : Bool)
    (setMuted : Bool → Except String Unit) : Except String AppState :=
  if st.hasRoom ∧ st.isConnected then
    if hasAudioTrack then
      match setMuted (!st.isMuted) with
      | .ok _ => .ok { st with isMuted := !st.isMuted }
      | .error e => .error e
    else .ok st
  else .ok st

/-- `Math.round` on an exact rational: round half toward positive
infinity, i.e. `⌊x + 1/2⌋`. -/
def jsMathRound (q : ℚ) : ℤ := ⌊q + 1 / 2⌋

/-- `calculateAverageLatency` of `client.js` (lines 41–43): 0 on an empty
list, otherwise `Math.round(sum / length)` (exact rational division in the
model; the JS doubles are exact at these magnitudes). -/
def calculateAverageLatency (ms : List Int) : Int :=
  if ms.length = 0 then 0
  else jsMathRound ((ms.sum : ℚ) / (ms.length : ℚ))

/-- The last-sample figure of `updateLatencyDisplay` (line 101 of
`client.js`): `measurements[measurements.length - 1]` when nonempty, else
0. -/
def displayedLastLatency (ms : List Int) : Int :=
  if ms.length > 0 then ms.getD (ms.length - 1) 0 else 0

/-- The count figure of `updateLatencyDisplay` (line 105 of `client.js`):
`measurements.length`. -/
def displayedCount (ms : List Int) : Nat := ms.length

/-- Arithmetic mean rounded to the nearest integer — the spec's wording,
via Mathlib's `round` (for comparison with `calculateAverageLatency`). -/
def specRoundedMean (ms : List Int) : Int :=
  round ((ms.sum : ℚ) / (ms.length : ℚ))

/-- Concrete protocol strings used in counterexamples and witnesses. -/
def userPartialJson : String := "\x7b\"type\": \"user_partial\"\x7d"

def userTranscriptJson : String := "\x7b\"type\": \"user_transcript\", \"text\": \"hi\"\x7d"

def agentResponseJson : String := "\x7b\"type\": \"agent_response\", \"text\": \"hi...got it\"\x7d"

/-- Helper: one data-channel step either leaves the transcript unchanged or
appends exactly one message whose `id` is the processing timestamp
(`Date.now()` at lines 73 and 99 of `App.js`). -/
lemma step_messages_shape (st : RState) (now : Int) (d : ChannelData) :
    (dataChannelStep st now d).1.messages = st.messages ∨
    ∃ m : Msg, m.id = now ∧ (dataChannelStep st now d).1.messages = st.messages ++ [m] := by
  unfold dataChannelStep
  cases hp : parseJsonFlat (normalizeData d) with
  | none => left; rfl
  | some obj =>
    by_cases h1 : jsLookup obj "type" = some "agent_response"
    · right
      refine ⟨{ id := now, sender := "Agent", text := jsLookup obj "text" }, rfl, ?_⟩
      simp only [handleParsed, h1, if_pos]
      rcases st.speechStartTime with _ | t0
      · rfl
      · by_cases h0 : t0 = 0 <;> simp [h0]
    · by_cases h2 : jsLookup obj "type" = some "agent_speaking"
      · left; simp [handleParsed, h1, h2]
      · by_cases h3 : jsLookup obj "type" = some "agent_partial"
        · left; simp [handleParsed, h1, h2, h3]
        · by_cases h4 : jsLookup obj "type" = some "user_partial"
          · left; simp [handleParsed, h1, h2, h3, h4]
          · by_cases h5 : jsLookup obj "type" = some "user_transcript"
            · right
              refine ⟨{ id := now, sender := "You", text := jsLookup obj "text" }, rfl, ?_⟩
              simp [handleParsed, h1, h2, h3, h4, h5]
            · left; simp [handleParsed, h1, h2, h3, h4, h5]

/-- Helper: over any run of data-channel events whose (pairwise)
timestamps are non-decreasing bounds for the transcript so far, the
transcript ids stay non-decreasing. -/
lemma runEvents_ids_sorted (evs : List (Int × ChannelData)) (st : RState)
    (hch : List.Pairwise (· ≤ ·) (evs.map Prod.fst))
    (hst : List.Chain' (· ≤ ·) (st.messages.map Msg.id))
    (hb : ∀ i ∈ st.messages.map Msg.id, ∀ t ∈ evs.map Prod.fst, i ≤ t) :
    List.Chain' (· ≤ ·) ((runEvents st evs).messages.map Msg.id) := by
  induction evs generalizing st with
  | nil => simpa [runEvents] using hst
  | cons ev rest ih =>
    obtain ⟨t, d⟩ := ev
    simp only [List.map_cons, List.pairwise_cons] at hch
    obtain ⟨hhead, htail⟩ := hch
    rw [runEvents]
    rcases step_messages_shape st t d with h | ⟨m, hmid, h⟩
    · refine ih _ htail (by rw [h]; exact hst) ?_
      rw [h]
      intro i hi t' ht'
      exact hb i hi t' (by simp only [List.map_cons, List.mem_cons]; right; exact ht')
    · refine ih _ htail ?_ ?_
      · rw [h, List.map_append, List.chain'_append]
        refine ⟨hst, by simp, ?_⟩
        intro x hx y hy
        simp only [List.map_singleton, List.head?_cons, Option.mem_def,
          Option.some.injEq] at hy
        subst hy
        obtain ⟨hne, hxeq⟩ := List.mem_getLast?_eq_getLast hx
        have hxmem : x ∈ st.messages.map Msg.id := hxeq ▸ List.getLast_mem hne
        have hxt : x ≤ t := hb x hxmem t (by simp)
        rw [hmid]
        exact hxt
      · rw [h, List.map_append]
        intro i hi t' ht'
        rcases List.mem_append.mp hi with hi | hi
        · exact hb i hi t' (by simp only [List.map_cons, List.mem_cons]; right; exact ht')
        · simp only [List.map_singleton, List.mem_singleton] at hi
          subst hi
          rw [hmid]
          exact hhead t' ht'

/-- Claim C1, counterexample: with `agentSpeaking = true`, processing a
decoded `user_partial` message leaves `agentSpeaking` still `true` and
issues no stop-playback command (the command list is empty, not a
singleton), contradicting the claimed barge-in transition. -/
theorem bargeIn_counterexample :
    (dataChannelStep { initialRState with isAgentSpeaking := true } 1000
        (.direct (.str userPartialJson))).1.isAgentSpeaking = true ∧
    (dataChannelStep { initialRState with isAgentSpeaking := true } 1000
        (.direct (.str userPartialJson))).2 = [] := by
  decide

/-- Claim C1, amended: processing a decoded User PartialTranscript
(`user_partial`) sets `userSpeaking` (`isSpeaking`) to `true` and leaves
everything else — including `agentSpeaking` — unchanged, and no command is
issued to the transport or playback sink by the client handler. -/
theorem bargeIn_amended (st : RState) (now : Int) (d : ChannelData)
    (obj : List (String × String))
    (hp : parseJsonFlat (normalizeData d) = some obj)
    (ht : jsLookup obj "type" = some "user_partial") :
    dataChannelStep st now d = ({ st with isSpeaking := true }, []) := by
  simp [dataChannelStep, hp, handleParsed, ht]

/-- Witness for `bargeIn_amended` at a concrete `user_partial` payload. -/
theorem bargeIn_amended_witness :
    parseJsonFlat (normalizeData (.direct (.str userPartialJson))) =
      some [("type", "user_partial")] ∧
    dataChannelStep { initialRState with isAgentSpeaking := true } 7
        (.direct (.str userPartialJson)) =
      ({ initialRState with isAgentSpeaking := true, isSpeaking := true }, []) := by
  refine ⟨by decide, ?_⟩
  have h := bargeIn_amended { initialRState with isAgentSpeaking := true } 7
    (.direct (.str userPartialJson)) [("type", "user_partial")] (by decide) (by decide)
  exact h.trans (by decide)

/-- Claim C2, counterexample: processing a User FinalTranscript
(`user_transcript`) DOES record the speech-onset timestamp
(`speechStartTime` becomes the processing time), and processing a User
PartialTranscript (`user_partial`) does NOT record one. -/
theorem onset_counterexample :
    (dataChannelStep initialRState 1000
        (.direct (.str userTranscriptJson))).1.speechStartTime = some 1000 ∧
    (dataChannelStep initialRState 900
        (.direct (.str userPartialJson))).1.speechStartTime = none := by
  decide

/-- Claim C2, amended: in the React client the onset timestamp is recorded
at the final user transcript, not at the start of speech: processing
`user_transcript` sets `userSpeaking = false`, appends to the transcript
AND sets the pending onset to the processing time, while `user_partial`
leaves the pending onset unchanged; each latency sample therefore spans
from the final user transcript to the agent's final reply. -/
theorem onset_amended (st : RState) (now : Int) (d : ChannelData)
    (obj : List (String × String))
    (hp : parseJsonFlat (normalizeData d) = some obj) :
    (jsLookup obj "type" = some "user_transcript" →
      dataChannelStep st now d =
        ({ st with
             messages := st.messages ++
               [{ id := now, sender := "You", text := jsLookup obj "text" }],
             speechStartTime := some now,
             isSpeaking := false }, [])) ∧
    (jsLookup obj "type" = some "user_partial" →
      (dataChannelStep st now d).1.speechStartTime = st.speechStartTime) := by
  constructor <;> intro ht <;> simp [dataChannelStep, hp, handleParsed, ht]

/-- Witness for `onset_amended` at a concrete `user_transcript` payload. -/
theorem onset_amended_witness :
    parseJsonFlat (normalizeData (.direct (.str userTranscriptJson))) =
      some [("type", "user_transcript"), ("text", "hi")] ∧
    dataChannelStep initialRState 5 (.direct (.str userTranscriptJson)) =
      ({ initialRState with
           messages := [{ id := 5, sender := "You", text := some "hi" }],
           speechStartTime := some 5,
           isSpeaking := false }, []) := by
  refine ⟨by decide, ?_⟩
  have h := (onset_amended initialRState 5 (.direct (.str userTranscriptJson))
      [("type", "user_transcript"), ("text", "hi")] (by decide)).1 (by decide)
  exact h.trans (by decide)

/-- Claim C3, counterexample: an onset at 500 followed by an agent reply
at 400 appends the negative sample −100 to `latencySamples` instead of
discarding it (there is no sign check in either client). -/
theorem negativeSample_counterexample :
    (runEvents initialRState [(500, .direct (.str userTranscriptJson)),
        (400, .direct (.str agentResponseJson))]).latencyMeasurements = [-100] ∧
    ¬ (0 : Int) ≤ -100 := by
  decide

/-- Claim C3, amended: whenever an agent reply arrives with a pending
(non-zero) onset, the delta reply-time minus onset-time is appended
unconditionally — a negative delta is appended, not discarded; all samples
are non-negative only under the extra assumption that the reply timestamp
is not earlier than the onset (monotone clock).  The same unconditional
append happens in `handleTrackSubscribed` of the plain client. -/
theorem negativeSample_amended (st : RState) (now : Int) (d : ChannelData)
    (obj : List (String × String)) (t0 : Int)
    (hp : parseJsonFlat (normalizeData d) = some obj)
    (ht : jsLookup obj "type" = some "agent_response")
    (hs : st.speechStartTime = some t0) (h0 : t0 ≠ 0) :
    (dataChannelStep st now d).1.latencyMeasurements = st.latencyMeasurements ++ [now - t0] ∧
    (t0 ≤ now → (∀ y ∈ st.latencyMeasurements, 0 ≤ y) →
      ∀ x ∈ (dataChannelStep st now d).1.latencyMeasurements, 0 ≤ x) ∧
    (∀ (stc : AppState) (nowc t0c : Int), stc.speechStartTime = some t0c → t0c ≠ 0 →
      (handleTrackSubscribed stc nowc "audio" "pipecat-agent").latencyMeasurements =
        stc.latencyMeasurements ++ [nowc - t0c]) := by
  have hmain : (dataChannelStep st now d).1.latencyMeasurements =
      st.latencyMeasurements ++ [now - t0] := by
    simp [dataChannelStep, hp, handleParsed, ht, hs, h0]
  refine ⟨hmain, ?_, ?_⟩
  · intro hle hold x hx
    rw [hmain] at hx
    rcases List.mem_append.mp hx with h | h
    · exact hold x h
    · simp only [List.mem_singleton] at h
      omega
  · intro stc nowc t0c hsc h0c
    simp [handleTrackSubscribed, hsc, h0c]

/-- Witness for `negativeSample_amended`: onset 500, reply 700, one
appended sample 200. -/
theorem negativeSample_amended_witness :
    (dataChannelStep { initialRState with speechStartTime := some 500 } 700
        (.direct (.str agentResponseJson))).1.latencyMeasurements = [200] := by
  have h := (negativeSample_amended { initialRState with speechStartTime := some 500 } 700
      (.direct (.str agentResponseJson)) [("type", "agent_response"), ("text", "hi...got it")]
      500 (by decide) (by decide) rfl (by decide)).1
  exact h.trans (by decide)

/-- Claim C4 (confirmed): an agent reply with a pending (truthy) onset
clears the pending value and records exactly one sample; with no pending
onset it records nothing and leaves the measurement state unchanged; and a
second agent reply right after any first one records no further sample, so
no onset is ever used for two latency samples. -/
theorem onsetConsumedOnce (st : RState) (now now2 : Int) (d d2 : ChannelData)
    (obj obj2 : List (String × String))
    (hp : parseJsonFlat (normalizeData d) = some obj)
    (ht : jsLookup obj "type" = some "agent_response") :
    (∀ t0, st.speechStartTime = some t0 → t0 ≠ 0 →
      (dataChannelStep st now d).1.speechStartTime = none ∧
      (dataChannelStep st now d).1.latencyMeasurements = st.latencyMeasurements ++ [now - t0]) ∧
    (st.speechStartTime = none →
      (dataChannelStep st now d).1.speechStartTime = none ∧
      (dataChannelStep st now d).1.latencyMeasurements = st.latencyMeasurements) ∧
    (parseJsonFlat (normalizeData d2) = some obj2 →
      jsLookup obj2 "type" = some "agent_response" →
      (dataChannelStep (dataChannelStep st now d).1 now2 d2).1.latencyMeasurements =
        (dataChannelStep st now d).1.latencyMeasurements) := by
  refine ⟨?_, ?_, ?_⟩
  · intro t0 hs h0
    constructor <;> simp [dataChannelStep, hp, handleParsed, ht, hs, h0]
  · intro hs
    constructor <;> simp [dataChannelStep, hp, handleParsed, ht, hs]
  · intro hp2 ht2
    rcases hs : st.speechStartTime with _ | t0
    · simp [dataChannelStep, hp, handleParsed, ht, hs, hp2, ht2]
    · by_cases h0 : t0 = 0
      · subst h0
        simp [dataChannelStep, hp, handleParsed, ht, hs, hp2, ht2]
      · simp [dataChannelStep, hp, handleParsed, ht, hs, h0, hp2, ht2]

/-- Witness for `onsetConsumedOnce`: onset 500, reply 700 — pending value
cleared, exactly the one sample 200 recorded. -/
theorem onsetConsumedOnce_witness :
    (dataChannelStep { initialRState with speechStartTime := some 500 } 700
        (.direct (.str agentResponseJson))).1.speechStartTime = none ∧
    (dataChannelStep { initialRState with speechStartTime := some 500 } 700
        (.direct (.str agentResponseJson))).1.latencyMeasurements = [200] := by
  have h := (onsetConsumedOnce { initialRState with speechStartTime := some 500 } 700 800
      (.direct (.str agentResponseJson)) (.direct (.str agentResponseJson))
      [("type", "agent_response"), ("text", "hi...got it")]
      [("type", "agent_response"), ("text", "hi...got it")]
      (by decide) (by decide)).1 500 rfl (by decide)
  exact ⟨h.1, h.2.trans (by decide)⟩

/-- Claim C5 (confirmed): a payload delivered as raw bytes, as a string,
or as a wrapper object holding either, normalizes to the same UTF-8
string (for any nonempty string content — the decoded form of the bytes),
so parsing yields identical decoded messages and processing yields
identical state updates for all four delivery forms. -/
theorem decodeNormalization (s : String) (b : List Nat) (st : RState) (now : Int)
    (hb : textDecode b = s) (hne : s ≠ "") :
    (normalizeData (.direct (.bytes b)) = s ∧
     normalizeData (.wrapped (.bytes b)) = s ∧
     normalizeData (.wrapped (.str s)) = s ∧
     normalizeData (.direct (.str s)) = s) ∧
    (parseJsonFlat (normalizeData (.direct (.bytes b))) = parseJsonFlat s ∧
     parseJsonFlat (normalizeData (.wrapped (.bytes b))) = parseJsonFlat s ∧
     parseJsonFlat (normalizeData (.wrapped (.str s))) = parseJsonFlat s) ∧
    (dataChannelStep st now (.direct (.bytes b)) = dataChannelStep st now (.direct (.str s)) ∧
     dataChannelStep st now (.wrapped (.bytes b)) = dataChannelStep st now (.direct (.str s)) ∧
     dataChannelStep st now (.wrapped (.str s)) = dataChannelStep st now (.direct (.str s))) := by
  have h1 : normalizeData (.direct (.bytes b)) = s := by
    simp [normalizeData, payloadText, hb]
  have h2 : normalizeData (.wrapped (.bytes b)) = s := by
    simp [normalizeData, payloadText, payloadTruthy, hb]
  have h3 : normalizeData (.wrapped (.str s)) = s := by
    simp [normalizeData, payloadText, payloadTruthy, hne]
  have h4 : normalizeData (.direct (.str s)) = s := by
    simp [normalizeData, payloadText]
  refine ⟨⟨h1, h2, h3, h4⟩, ⟨by rw [h1], by rw [h2], by rw [h3]⟩, ?_, ?_, ?_⟩ <;>
    · unfold dataChannelStep
      rw [h4]
      first
        | rw [h1]
        | rw [h2]
        | rw [h3]

/-- Witness for `decodeNormalization`: the ASCII bytes of the
`user_partial` message decode to that string, and the wrapped-bytes form
steps identically to the direct-string form. -/
theorem decodeNormalization_witness :
    textDecode [123, 34, 116, 121, 112, 101, 34, 58, 32, 34, 117, 115, 101, 114, 95,
        112, 97, 114, 116, 105, 97, 108, 34, 125] = userPartialJson ∧
    dataChannelStep initialRState 3 (.wrapped (.bytes [123, 34, 116, 121, 112, 101, 34,
        58, 32, 34, 117, 115, 101, 114, 95, 112, 97, 114, 116, 105, 97, 108, 34, 125])) =
      dataChannelStep initialRState 3 (.direct (.str userPartialJson)) := by
  refine ⟨by decide, ?_⟩
  exact ((decodeNormalization userPartialJson
    [123, 34, 116, 121, 112, 101, 34, 58, 32, 34, 117, 115, 101, 114, 95,
     112, 97, 114, 116, 105, 97, 108, 34, 125] initialRState 3
    (by decide) (by decide)).2.2).2.1

/-- Claim C6 (confirmed): the data-channel handler is a total function
(nothing escapes the callback), and any payload that fails parsing, as
well as any well-formed message whose type is outside the five recognized
values, leaves the entire session state unchanged and issues no command. -/
theorem malformedOrUnknownIgnored (st : RState) (now : Int) (d : ChannelData)
    (h : parseJsonFlat (normalizeData d) = none ∨
         ∃ obj, parseJsonFlat (normalizeData d) = some obj ∧
           jsLookup obj "type" ∉ ([some "agent_response", some "agent_speaking",
             some "agent_partial", some "user_partial", some "user_transcript"] :
               List (Option String))) :
    dataChannelStep st now d = (st, []) := by
  rcases h with h | ⟨obj, hp, hm⟩
  · simp [dataChannelStep, h]
  · simp only [List.mem_cons, List.mem_singleton, not_or] at hm
    obtain ⟨h1, h2, h3, h4, h5, -⟩ := hm
    simp [dataChannelStep, hp, handleParsed, h1, h2, h3, h4, h5]

/-- Witness for `malformedOrUnknownIgnored`: a non-JSON payload and an
unknown-type message both leave the state untouched. -/
theorem malformedOrUnknownIgnored_witness :
    parseJsonFlat (normalizeData (.direct (.str "not json"))) = none ∧
    dataChannelStep initialRState 9 (.direct (.str "not json")) = (initialRState, []) ∧
    dataChannelStep initialRState 9 (.direct (.str "\x7b\"type\": \"mystery\"\x7d")) =
      (initialRState, []) := by
  refine ⟨by decide, malformedOrUnknownIgnored initialRState 9 _ (Or.inl (by decide)), ?_⟩
  exact malformedOrUnknownIgnored initialRState 9 _
    (Or.inr ⟨[("type", "mystery")], by decide, by decide⟩)

/-- Claim C7 (confirmed): in a connected session with an audio track,
`toggleMute` flips `isMuted` exactly when the adapter `setMuted` call
resolves; when the adapter rejects, the error propagates to the caller and
the state is left unchanged (the state assignment after the `await` never
runs). -/
theorem toggleMuteAtomicity (st : AppState) (f : Bool → Except String Unit) (e : String)
    (hr : st.hasRoom = true) (hc : st.isConnected = true) :
    (f (!st.isMuted) = .error e → toggleMute st true f = .error e) ∧
    (f (!st.isMuted) = .ok () →
      toggleMute st true f = .ok { st with isMuted := !st.isMuted }) := by
  constructor <;> intro hf <;> simp [toggleMute, hr, hc, hf]

/-- Witness for `toggleMuteAtomicity` with a rejecting and a resolving
adapter. -/
theorem toggleMuteAtomicity_witness :
    toggleMute { createAppState with hasRoom := true, isConnected := true } true
      (fun _ => Except.error "boom") = Except.error "boom" ∧
    toggleMute { createAppState with hasRoom := true, isConnected := true } true
      (fun _ => Except.ok ()) =
      Except.ok { createAppState with hasRoom := true, isMuted := true, isConnected := true } := by
  constructor
  · exact (toggleMuteAtomicity { createAppState with hasRoom := true, isConnected := true }
      (fun _ => Except.error "boom") "boom" rfl rfl).1 rfl
  · have h := (toggleMuteAtomicity { createAppState with hasRoom := true, isConnected := true }
      (fun _ => Except.ok ()) "x" rfl rfl).2 rfl
    exact h.trans (by rfl)

/-- Claim C8 (confirmed): a `Reconnecting` event followed by a
`Reconnected` event leaves the plain client's `appState` — in particular
`latencyMeasurements` — unchanged (the handlers only touch the DOM), and
leaves the React component's transcript and latency samples unchanged
(the component registers no handler for these transport events). -/
theorem reconnectPreservesHistory (stc : AppState) (st : RState) :
    (roomEventStep (roomEventStep stc .reconnecting) .reconnected) = stc ∧
    (roomEventStep (roomEventStep stc .reconnecting) .reconnected).latencyMeasurements =
      stc.latencyMeasurements ∧
    (sessionStep (sessionStep st .transportReconnecting).1 .transportReconnected).1.messages =
      st.messages ∧
    (sessionStep (sessionStep st
        .transportReconnecting).1 .transportReconnected).1.latencyMeasurements =
      st.latencyMeasurements :=
  ⟨rfl, rfl, rfl, rfl⟩

/-- Claim C9, counterexample: two `user_transcript` messages processed in
the same millisecond (both at `Date.now() = 1000`) receive equal ids —
the id sequence `[1000, 1000]` is neither strictly increasing nor
duplicate-free. -/
theorem messageId_counterexample :
    (runEvents initialRState [(1000, .direct (.str userTranscriptJson)),
        (1000, .direct (.str userTranscriptJson))]).messages.map Msg.id = [1000, 1000] ∧
    ¬ List.Chain' (· < ·) ((runEvents initialRState [(1000, .direct (.str userTranscriptJson)),
        (1000, .direct (.str userTranscriptJson))]).messages.map Msg.id) ∧
    ¬ ((runEvents initialRState [(1000, .direct (.str userTranscriptJson)),
        (1000, .direct (.str userTranscriptJson))]).messages.map Msg.id).Nodup := by
  have h : (runEvents initialRState [(1000, .direct (.str userTranscriptJson)),
      (1000, .direct (.str userTranscriptJson))]).messages.map Msg.id = [1000, 1000] := by
    decide
  refine ⟨h, ?_, ?_⟩
  · rw [h]; simp [List.chain'_cons]
  · rw [h]; simp

/-- Claim C9, amended: transcript ids equal the processing timestamp, so
over any run of decoded messages whose processing timestamps are
non-decreasing the appended ids are non-decreasing in append order; they
are not unique or strictly increasing, since two messages in the same
millisecond collide. -/
theorem messageId_amended (evs : List (Int × ChannelData))
    (hch : List.Chain' (· ≤ ·) (evs.map Prod.fst)) :
    List.Chain' (· ≤ ·) ((runEvents initialRState evs).messages.map Msg.id) := by
  refine runEvents_ids_sorted evs initialRState ?_ (by simp [initialRState]) ?_
  · exact List.chain'_iff_pairwise.mp hch
  · simp [initialRState]

/-- Witness for `messageId_amended` on a two-event run with increasing
timestamps. -/
theorem messageId_amended_witness :
    List.Chain' (· ≤ ·) ([((5 : Int), ChannelData.direct (.str userTranscriptJson)),
        (7, ChannelData.direct (.str agentResponseJson))].map Prod.fst) ∧
    List.Chain' (· ≤ ·) ((runEvents initialRState [(5, .direct (.str userTranscriptJson)),
        (7, .direct (.str agentResponseJson))]).messages.map Msg.id) ∧
    (runEvents initialRState [(5, .direct (.str userTranscriptJson)),
        (7, .direct (.str agentResponseJson))]).messages.map Msg.id = [5, 7] := by
  have hch : List.Chain' (· ≤ ·) ([((5 : Int), ChannelData.direct (.str userTranscriptJson)),
      (7, ChannelData.direct (.str agentResponseJson))].map Prod.fst) := by
    norm_num [List.chain'_cons]
  exact ⟨hch, messageId_amended _ hch, by decide⟩

/-- Claim C10 (confirmed): the exposed average is 0 on no samples and the
arithmetic mean rounded to the nearest integer (`Math.round`, i.e. Mathlib
`round`) on a nonempty list; the exposed count is the list length and the
exposed last sample is the most recently appended value. -/
theorem latencyStats (ms : List Int) (x : Int) :
    (ms ≠ [] → calculateAverageLatency ms = specRoundedMean ms) ∧
    calculateAverageLatency [] = 0 ∧
    displayedCount ms = ms.length ∧
    displayedLastLatency (ms ++ [x]) = x := by
  refine ⟨?_, by simp [calculateAverageLatency], rfl, ?_⟩
  · intro h
    have hlen : ms.length ≠ 0 := by simpa using h
    simp [calculateAverageLatency, specRoundedMean, jsMathRound, round_eq, hlen]
  · simp only [displayedLastLatency, List.length_append, List.length_singleton]
    have hpos : ms.length + 1 > 0 := Nat.succ_pos _
    have hlen : ms.length + 1 - 1 = ms.length := rfl
    rw [if_pos hpos, hlen, List.getD_eq_getElem?_getD, List.getElem?_concat_length]
    rfl

/-- Witness for `latencyStats` on the samples `[3, 4]`: the displayed
average is `Math.round(3.5) = 4`, the rounded mean. -/
theorem latencyStats_witness :
    calculateAverageLatency [3, 4] = specRoundedMean [3, 4] ∧
    calculateAverageLatency [3, 4] = 4 ∧
    displayedLastLatency ([3, 4] ++ [9]) = 9 := by
  refine ⟨(latencyStats [3, 4] 9).1 (by decide),
    by norm_num [calculateAverageLatency, jsMathRound],
    ((latencyStats [3, 4] 9).2).2.2⟩

end VoiceAgent
